import Mathlib

/-!
# Mini LinkedIn: the HTTP entry point, the posts feed page and the post composer

A shallow embedding of backend/index.js, frontend/src/app/page.js and
frontend/src/components/PostForm.js.

JavaScript strings are modelled by the list of their UTF-16 code units, so that the
length of the list is the JavaScript length and list append is string concatenation.
React state is modelled by explicit state passing: a handler is a function from the
component state to the state after its updates. Where a handler reads a state variable
of the render it closes over and also updates through a function of the previous state,
as onEmojiClick does, the value of the render is an argument of its own.
-/

namespace MiniLinkedIn

/-! ## JavaScript strings -/

/-- A JavaScript string: the finite sequence of its UTF-16 code units (each below 65536). -/
abbrev JSString := List Nat

/-- UTF-16 code units of one Unicode scalar value (a surrogate pair above the basic plane). -/
def encodeChar (c : Char) : List Nat :=
  if c.toNat < 65536 then [c.toNat]
  else [55296 + (c.toNat - 65536) / 1024, 56320 + (c.toNat - 65536) % 1024]

/-- UTF-16 code units of a list of scalar values. -/
def utf16Chars : List Char → JSString
  | [] => []
  | c :: cs => encodeChar c ++ utf16Chars cs

/-- The JavaScript string written as a source literal. -/
def utf16 (s : String) : JSString := utf16Chars s.toList

/-- String.prototype.startsWith: the search string is an initial segment of the receiver. -/
def startsWith (s search : JSString) : Bool := search.isPrefixOf s

/-- ToBoolean on a value that is a string or undefined/null: only a non-empty string is truthy. -/
def truthy : Option JSString → Bool
  | some (_ :: _) => true
  | _ => false

/-- Array.prototype.indexOf counted from position i: first index of a strictly equal entry, else -1. -/
def indexOfFrom (x : JSString) : List JSString → Nat → Int
  | [], _ => -1
  | y :: ys, i => if y = x then (i : Int) else indexOfFrom x ys (i + 1)

/-- Array.prototype.indexOf. -/
def indexOf (xs : List JSString) (x : JSString) : Int := indexOfFrom x xs 0

/-- The exceptions raised by the platform functions and by property access. -/
inductive JSException
  | invalidCharacterError
  | syntaxError
  | typeError
  deriving DecidableEq, Repr

/-! ## backend/index.js -/

/-- A value that travels down the Express error channel: an instance of Error whose
message is a string; an instance of Error whose message property is not a string
(undefined, null, a number, a boolean, a plain object), with a rendering of that value;
or any other thrown value (a string, a plain object, ...) with its rendering. -/
inductive JSThrown
  | error (message : JSString)
  | errorNonString (rendering : JSString)
  | nonError (rendering : JSString)
  deriving DecidableEq, Repr

/-- The JSON bodies the entry point itself sends: an object with the single key message. -/
structure JsonBody where
  message : JSString
  deriving DecidableEq, Repr

/-- An HTTP response: status code and JSON body. -/
structure Response where
  status : Nat
  body : JsonBody
  deriving DecidableEq, Repr

/-- The array allowedOrigins (index.js 23-26): the fixed local origin and FRONTEND_URL,
with falsy entries (undefined, the empty string) filtered out. -/
def allowedOrigins (FRONTEND_URL : Option JSString) : List JSString :=
  ([some (utf16 "http://localhost:3000"), FRONTEND_URL].filter truthy).filterMap id

/-- What the origin function hands to its callback: callback(err, allow). -/
structure OriginDecision where
  err : Option JSThrown
  allow : Bool
  deriving DecidableEq, Repr

/-- The origin function given to cors (index.js 30-38). -/
def corsOrigin (allowed : List JSString) (origin : Option JSString) : OriginDecision :=
  match origin with
  | none => ⟨none, true⟩
  | some o =>
    if truthy (some o) = false then ⟨none, true⟩
    else if indexOf allowed o = -1 then
      ⟨some (JSThrown.error
        (utf16 "The CORS policy for this site does not allow access from Origin: " ++ o)), false⟩
    else ⟨none, true⟩

/-- The global error handler (index.js 69-76): the response it sends and what it logs
with console.error, or the exception it raises itself. For an instance of Error the
condition of line 70 calls err.message.startsWith: a message that is not a string has no
such method (and undefined or null no properties at all), so the call raises a TypeError
before anything is logged or sent. -/
def errorHandler (err : JSThrown) : Except JSException (Response × List JSThrown) :=
  match err with
  | JSThrown.error message =>
    if startsWith message (utf16 "The CORS policy") then Except.ok (⟨403, ⟨message⟩⟩, [])
    else Except.ok (⟨500, ⟨utf16 "Server error"⟩⟩, [err])
  | JSThrown.errorNonString _ => Except.error JSException.typeError
  | JSThrown.nonError _ => Except.ok (⟨500, ⟨utf16 "Server error"⟩⟩, [err])

/-- What the cors middleware does with a request: it goes on, it is answered by the
global error handler, or that handler raises an exception of its own. -/
inductive CorsOutcome
  | proceeds
  | answered (r : Response)
  | handlerThrew (e : JSException)
  deriving DecidableEq, Repr

/-- The cors middleware of index.js 29-40 followed by the Express error channel: the cors
package passes an error of the origin function to next, and Express hands a value given
to next to the error-handling middleware; without an error the request goes on to the
next middleware. -/
def corsMiddleware (FRONTEND_URL origin : Option JSString) : CorsOutcome :=
  match (corsOrigin (allowedOrigins FRONTEND_URL) origin).err with
  | some e =>
    match errorHandler e with
    | Except.ok r => CorsOutcome.answered r.1
    | Except.error x => CorsOutcome.handlerThrew x
  | none => CorsOutcome.proceeds

/-! ## frontend/src/components/PostForm.js -/

/-- The cap on the draft (PostForm.js 18). -/
def maxChars : Nat := 300

/-- WhiteSpace and LineTerminator code units, the ones String.prototype.trim strips. -/
def isWhiteSpace (c : Nat) : Bool :=
  c == 9 || c == 10 || c == 11 || c == 12 || c == 13 || c == 32 || c == 160 || c == 5760 ||
  (8192 ≤ c && c ≤ 8202) || c == 8232 || c == 8233 || c == 8239 || c == 8287 ||
  c == 12288 || c == 65279

/-- String.prototype.trim. -/
def trim (s : JSString) : JSString :=
  ((s.dropWhile isWhiteSpace).reverse.dropWhile isWhiteSpace).reverse

/-- A File object as far as the composer looks at it: its name and declared MIME type. -/
structure File where
  name : JSString
  type : JSString
  deriving DecidableEq, Repr

/-- The state of PostForm (PostForm.js 11-16). The last field is fileInputRef.current:
none while no input element is attached, else the value of the attached file input. -/
structure PostFormState where
  content : JSString
  loading : Bool
  media : Option File
  showEmojiPicker : Bool
  error : Option JSString
  fileInputValue : Option JSString
  deriving DecidableEq, Repr

/-- The state after mounting: the useState initial values, and an empty file input. -/
def initialState : PostFormState :=
  { content := [], loading := false, media := none, showEmojiPicker := false,
    error := none, fileInputValue := some [] }

/-- The handler handleChange (PostForm.js 24-28); value is e.target.value. -/
def handleChange (s : PostFormState) (value : JSString) : PostFormState :=
  if value.length ≤ maxChars then { s with content := value } else s

/-- The expression emojiObject?.emoji || "" (PostForm.js 32): the outer option is the
object (none for null or undefined), the inner one its emoji property. -/
def emojiOf (emojiObject : Option (Option JSString)) : JSString :=
  match emojiObject with
  | some (some (c :: cs)) => c :: cs
  | _ => []

/-- The handler onEmojiClick (PostForm.js 31-36). The guard of line 33 reads content, the
draft of the render the handler closes over; the update of line 34 is a function of the
previous state and appends to the draft current when it runs, which is s.content. -/
def onEmojiClick (content : JSString) (s : PostFormState)
    (emojiObject : Option (Option JSString)) : PostFormState :=
  if content.length + (emojiOf emojiObject).length ≤ maxChars then
    { s with content := s.content ++ emojiOf emojiObject }
  else s

/-- The handler handleMediaChange (PostForm.js 39-49); files is e.target.files. -/
def handleMediaChange (s : PostFormState) (files : List File) : PostFormState :=
  match files.head? with
  | none => s
  | some file =>
    if (!startsWith file.type (utf16 "image/")) && (!startsWith file.type (utf16 "video/")) then
      { s with error := some (utf16 "Please select an image or video file only.") }
    else
      { s with media := some file, error := none }

/-- The handler removeMedia (PostForm.js 52-57): the media is dropped and an attached file
input is reset to the empty value. -/
def removeMedia (s : PostFormState) : PostFormState :=
  { s with media := none, fileInputValue := s.fileInputValue.map (fun _ => []) }

/-- The inline handler of the emoji toggle button: setShowEmojiPicker(prev => !prev). -/
def toggleEmojiPicker (s : PostFormState) : PostFormState :=
  { s with showEmojiPicker := !s.showEmojiPicker }

/-- The multipart request of handleSubmit: URL, the form fields content and media, and
the Authorization header. -/
structure PostRequest where
  url : JSString
  content : JSString
  media : Option File
  authorization : JSString
  deriving DecidableEq, Repr

/-- How the promise of axios.post settles. -/
inductive PostOutcome
  | resolved
  | rejected
  deriving DecidableEq, Repr

/-- How a synchronous call of the onPostCreated prop ends. -/
inductive CallOutcome
  | returned
  | threw
  deriving DecidableEq, Repr

/-- What the composer reads from its surroundings: the configured backend URL, the token
item of localStorage, the onPostCreated prop (none when the prop is not passed) and the
answer of the network to a request. -/
structure ComposerEnv where
  NEXT_PUBLIC_BACKEND_URL : Option JSString
  token : Option JSString
  onPostCreated : Option CallOutcome
  axiosPost : PostRequest → PostOutcome

/-- The side effects of a submission: the requests sent, the number of calls of
onPostCreated and the number of console.error calls. -/
structure Effects where
  requests : List PostRequest
  postCreatedCalls : Nat
  consoleErrors : Nat
  deriving DecidableEq, Repr

/-- The constant API_BASE (PostForm.js 21). -/
def API_BASE (NEXT_PUBLIC_BACKEND_URL : Option JSString) : JSString :=
  match NEXT_PUBLIC_BACKEND_URL with
  | some (c :: cs) => c :: cs
  | _ => utf16 "http://localhost:5000"

/-- The request built in PostForm.js 78-89 for a state and a token. -/
def submitRequest (backendUrl : Option JSString) (s : PostFormState) (token : JSString) :
    PostRequest :=
  { url := API_BASE backendUrl ++ utf16 "/posts",
    content := trim s.content,
    media := s.media,
    authorization := utf16 "Bearer " ++ token }

/-- Where handleSubmit stands when it first yields: it has returned, or it is suspended at
the await of axios.post with a request in flight. -/
inductive Submission
  | settled (s : PostFormState)
  | awaiting (s : PostFormState) (req : PostRequest)
  deriving DecidableEq, Repr

/-- The synchronous part of handleSubmit (PostForm.js 60-89), up to the await. -/
def handleSubmitStart (backendUrl token : Option JSString) (s : PostFormState) : Submission :=
  let s1 := { s with error := none }
  if (trim s.content).isEmpty && s.media.isNone then
    Submission.settled { s1 with error := some (utf16 "Please enter some text or attach media to post.") }
  else
    match token with
    | some (c :: cs) =>
      Submission.awaiting { s1 with loading := true } (submitRequest backendUrl s (c :: cs))
    | _ => Submission.settled { s1 with error := some (utf16 "You must be logged in to post.") }

/-- The rest of handleSubmit (PostForm.js 91-100), run on the state current when the
promise settles: the success path, the catch block and the finally block. The second
component counts the calls of onPostCreated, the third those of console.error. -/
def handleSubmitResume (outcome : PostOutcome) (onPostCreated : Option CallOutcome)
    (s : PostFormState) : PostFormState × Nat × Nat :=
  match outcome with
  | PostOutcome.rejected =>
    ({ s with error := some (utf16 "Error posting. Please try again."), loading := false }, 0, 1)
  | PostOutcome.resolved =>
    let s1 := { removeMedia { s with content := [] } with showEmojiPicker := false }
    match onPostCreated with
    | none => ({ s1 with loading := false }, 0, 0)
    | some CallOutcome.returned => ({ s1 with loading := false }, 1, 0)
    | some CallOutcome.threw =>
      ({ s1 with error := some (utf16 "Error posting. Please try again."), loading := false }, 1, 1)

/-- The handler handleSubmit (PostForm.js 60-101) run without interruption: final state
and side effects. -/
def handleSubmit (env : ComposerEnv) (s : PostFormState) : PostFormState × Effects :=
  match handleSubmitStart env.NEXT_PUBLIC_BACKEND_URL env.token s with
  | Submission.settled s1 => (s1, { requests := [], postCreatedCalls := 0, consoleErrors := 0 })
  | Submission.awaiting s1 req =>
    let r := handleSubmitResume (env.axiosPost req) env.onPostCreated s1
    (r.1, { requests := [req], postCreatedCalls := r.2.1, consoleErrors := r.2.2 })

/-- The events of the composer. A change event of the file input carries the new value of
the input element. A submission is either run to its end, or split at its await so that
other events may come in between. -/
inductive ComposerOp
  | change (value : JSString)
  | emojiClick (emojiObject : Option (Option JSString))
  | mediaChange (value : JSString) (files : List File)
  | removeMedia
  | toggleEmojiPicker
  | submit (env : ComposerEnv)
  | submitStart (backendUrl token : Option JSString)
  | submitResume (outcome : PostOutcome) (onPostCreated : Option CallOutcome)

/-- One event of the composer, handled by the handlers of a render of the state current
when the event fires: the draft that onEmojiClick closes over is the current one. -/
def step (s : PostFormState) : ComposerOp → PostFormState
  | ComposerOp.change value => handleChange s value
  | ComposerOp.emojiClick emojiObject => onEmojiClick s.content s emojiObject
  | ComposerOp.mediaChange value files =>
    handleMediaChange { s with fileInputValue := s.fileInputValue.map (fun _ => value) } files
  | ComposerOp.removeMedia => removeMedia s
  | ComposerOp.toggleEmojiPicker => toggleEmojiPicker s
  | ComposerOp.submit env => (handleSubmit env s).1
  | ComposerOp.submitStart backendUrl token =>
    match handleSubmitStart backendUrl token s with
    | Submission.settled s1 => s1
    | Submission.awaiting s1 _ => s1
  | ComposerOp.submitResume outcome onPostCreated =>
    (handleSubmitResume outcome onPostCreated s).1

/-- The state after a sequence of events from the initial state, with a render between
any two events. -/
def run (ops : List ComposerOp) : PostFormState := ops.foldl step initialState

/-! ## frontend/src/app/page.js: timeAgo -/

/-- The plural suffix of timeAgo: an s unless the count is 1. -/
def pluralS (n : Int) : JSString := if n ≠ 1 then utf16 "s" else []

/-- An integer Number in a template literal: its decimal digits, with a minus sign when
negative. -/
def numberToString (n : Int) : JSString := utf16 (toString n)

/-- The function timeAgo (page.js 9-22) on the time values, in milliseconds, of now and of
the parsed date. Math.floor of a quotient is floor division. -/
def timeAgo (now date : Int) : JSString :=
  let diffMs := now - date
  let diffSeconds := Int.fdiv diffMs 1000
  if diffSeconds < 60 then
    numberToString diffSeconds ++ utf16 " sec" ++ pluralS diffSeconds ++ utf16 " ago"
  else
    let diffMinutes := Int.fdiv diffSeconds 60
    if diffMinutes < 60 then
      numberToString diffMinutes ++ utf16 " min" ++ pluralS diffMinutes ++ utf16 " ago"
    else
      let diffHours := Int.fdiv diffMinutes 60
      if diffHours < 24 then
        numberToString diffHours ++ utf16 " hour" ++ pluralS diffHours ++ utf16 " ago"
      else
        let diffDays := Int.fdiv diffHours 24
        numberToString diffDays ++ utf16 " day" ++ pluralS diffDays ++ utf16 " ago"

/-- The wording of the specification for one bucket: the count, the unit, an s exactly
when the count is not 1, and the word ago. -/
def agoText (count : Nat) (unit : String) : JSString :=
  utf16 (toString count) ++ utf16 " " ++ utf16 unit ++ (if count = 1 then [] else utf16 "s")
    ++ utf16 " ago"

/-- The specification of timeAgo for a timestamp d milliseconds in the past. -/
def timeAgoSpec (d : Nat) : JSString :=
  let s := d / 1000
  let m := s / 60
  let h := m / 60
  let D := h / 24
  if s < 60 then agoText s "sec"
  else if m < 60 then agoText m "min"
  else if h < 24 then agoText h "hour"
  else agoText D "day"

/-! ## frontend/src/app/page.js: fetchUserInfo

The platform functions it calls are modelled after their standards: split and JSON.parse
after ECMAScript, atob after the forgiving-base64 decoder of the WHATWG Infra standard. -/

/-- A Number written as a JSON literal: the double nearest to
(-1)^negative * mantissa * 10^exponent. -/
structure JSNumber where
  negative : Bool
  mantissa : Nat
  exponent : Int
  deriving DecidableEq, Repr

/-- The literal denotes +0 or -0: its mantissa is 0, or its value is at most 2^-1075,
half the least positive double, and rounds to zero. -/
def JSNumber.isZero (n : JSNumber) : Bool :=
  match n.exponent with
  | Int.ofNat _ => n.mantissa == 0
  | Int.negSucc k => decide (n.mantissa * 2 ^ 1075 ≤ 10 ^ (k + 1))

/-- The JavaScript values JSON.parse and property access on its results can yield. -/
inductive JSValue
  | undefined
  | null
  | bool (b : Bool)
  | number (n : JSNumber)
  | string (s : JSString)
  | array (elems : List JSValue)
  | object (members : List (JSString × JSValue))

/-- ToBoolean. -/
def toBoolean : JSValue → Bool
  | JSValue.undefined => false
  | JSValue.null => false
  | JSValue.bool b => b
  | JSValue.number n => !n.isZero
  | JSValue.string s => !s.isEmpty
  | JSValue.array _ => true
  | JSValue.object _ => true

/-- The operator a || b. -/
def jsOr (a b : JSValue) : JSValue := if toBoolean a then a else b

/-- The value of v.key for a value v that is neither null nor undefined and a key that is
no index, not length and not defined by a built-in prototype, as name and id are: the
member of an object written last under that key, else undefined. -/
def ownField (v : JSValue) (key : JSString) : JSValue :=
  match v with
  | JSValue.object members =>
    match members.reverse.find? (fun m => m.1 == key) with
    | some m => m.2
    | none => JSValue.undefined
  | _ => JSValue.undefined

/-- Property access v.key for such a key: a TypeError on null and undefined. -/
def getField (v : JSValue) (key : JSString) : Except JSException JSValue :=
  match v with
  | JSValue.undefined => Except.error JSException.typeError
  | JSValue.null => Except.error JSException.typeError
  | _ => Except.ok (ownField v key)

/-- String.prototype.split with a separator of one code unit: the segments between the
occurrences of the separator. -/
def split (sep : Nat) : JSString → List JSString
  | [] => [[]]
  | c :: cs =>
    if c = sep then [] :: split sep cs
    else
      match split sep cs with
      | [] => [[c]]
      | seg :: segs => (c :: seg) :: segs

/-- ToString of an argument that is a string or undefined. -/
def toStringArg : Option JSString → JSString
  | some s => s
  | none => utf16 "undefined"

/-- ASCII whitespace, which atob removes from its argument. -/
def isAsciiWhitespace (c : Nat) : Bool :=
  c == 9 || c == 10 || c == 12 || c == 13 || c == 32

/-- The 6-bit value of a code unit of the base64 alphabet. -/
def base64Value (c : Nat) : Option Nat :=
  if 65 ≤ c ∧ c ≤ 90 then some (c - 65)
  else if 97 ≤ c ∧ c ≤ 122 then some (c - 71)
  else if 48 ≤ c ∧ c ≤ 57 then some (c + 4)
  else if c = 43 then some 62
  else if c = 47 then some 63
  else none

/-- The 6-bit values of a string, if all its code units are in the base64 alphabet. -/
def sextets : List Nat → Option (List Nat)
  | [] => some []
  | c :: cs =>
    match base64Value c, sextets cs with
    | some v, some vs => some (v :: vs)
    | _, _ => none

/-- When the length is a multiple of 4, one or two trailing = signs are removed. -/
def stripPadding (data : List Nat) : List Nat :=
  if data.length % 4 = 0 then
    match data.reverse with
    | 61 :: 61 :: r => r.reverse
    | 61 :: r => r.reverse
    | _ => data
  else data

/-- The bytes of a sequence of 6-bit values: three per full group of four; a rest of
three values gives two bytes and a rest of two gives one byte, the spare bits dropped. -/
def decodeSextets : List Nat → List Nat
  | a :: b :: c :: d :: rest =>
    (a * 262144 + b * 4096 + c * 64 + d) / 65536
      :: (a * 262144 + b * 4096 + c * 64 + d) / 256 % 256
      :: (a * 262144 + b * 4096 + c * 64 + d) % 256
      :: decodeSextets rest
  | [a, b, c] => [(a * 4096 + b * 64 + c) / 4 / 256, (a * 4096 + b * 64 + c) / 4 % 256]
  | [a, b] => [(a * 64 + b) / 16]
  | _ => []

/-- The function atob: forgiving-base64 decode, the bytes returned as code units. -/
def atob (data : JSString) : Except JSException JSString :=
  let d := stripPadding (data.filter (fun c => !isAsciiWhitespace c))
  if d.length % 4 = 1 then Except.error JSException.invalidCharacterError
  else
    match sextets d with
    | none => Except.error JSException.invalidCharacterError
    | some vs => Except.ok (decodeSextets vs)

/-- The tokens of a JSON text; scalar covers strings, numbers, true, false and null. -/
inductive Token
  | beginArray
  | endArray
  | beginObject
  | endObject
  | colon
  | comma
  | scalar (v : JSValue)

/-- What the tokenizer is in the middle of. Accumulated code units are kept in reverse. -/
inductive LexMode
  | idle
  | inWord (acc : List Nat)
  | inString (acc : List Nat)
  | inEscape (acc : List Nat)
  | inUnicode (acc : List Nat) (count value : Nat)

/-- The state of the tokenizer: its mode and the tokens read so far, in reverse. -/
structure LexState where
  mode : LexMode
  tokens : List Token

/-- A decimal digit. -/
def isDigit (c : Nat) : Bool := 48 ≤ c && c ≤ 57

/-- The code units number and literal tokens are made of: digits, letters, sign and dot. -/
def isWordChar (c : Nat) : Bool :=
  isDigit c || (97 ≤ c && c ≤ 122) || (65 ≤ c && c ≤ 90) || c == 43 || c == 45 || c == 46

/-- The value of a hexadecimal digit. -/
def hexValue (c : Nat) : Option Nat :=
  if 48 ≤ c ∧ c ≤ 57 then some (c - 48)
  else if 97 ≤ c ∧ c ≤ 102 then some (c - 87)
  else if 65 ≤ c ∧ c ≤ 70 then some (c - 55)
  else none

/-- The number denoted by a sequence of decimal digits. -/
def digitsToNat (ds : List Nat) : Nat := ds.foldl (fun n c => n * 10 + (c - 48)) 0

/-- The exponent part of a JSON number, after the e: an optional sign and digits up to the
end of the word. -/
def parseExponent (w : List Nat) : Option Int :=
  match w with
  | 43 :: ds => if !ds.isEmpty && ds.all isDigit then some (digitsToNat ds : Int) else none
  | 45 :: ds => if !ds.isEmpty && ds.all isDigit then some (-(digitsToNat ds : Int)) else none
  | ds => if !ds.isEmpty && ds.all isDigit then some (digitsToNat ds : Int) else none

/-- The fraction and exponent of a JSON number, after the integer digits. -/
def parseFraction (negative : Bool) (intDigits w : List Nat) : Option JSNumber :=
  match w with
  | [] => some ⟨negative, digitsToNat intDigits, 0⟩
  | 46 :: rest =>
    match rest.span isDigit with
    | ([], _) => none
    | (fs, []) => some ⟨negative, digitsToNat (intDigits ++ fs), -(fs.length : Int)⟩
    | (fs, e :: es) =>
      if e = 101 ∨ e = 69 then
        (parseExponent es).map
          (fun x => ⟨negative, digitsToNat (intDigits ++ fs), x - (fs.length : Int)⟩)
      else none
  | e :: es =>
    if e = 101 ∨ e = 69 then
      (parseExponent es).map (fun x => ⟨negative, digitsToNat intDigits, x⟩)
    else none

/-- A JSON number without its sign: integer digits with no leading zero, then the rest. -/
def parseUnsigned (negative : Bool) (w : List Nat) : Option JSNumber :=
  match w.span isDigit with
  | ([], _) => none
  | ([d], rest) => parseFraction negative [d] rest
  | (d :: ds, rest) => if d = 48 then none else parseFraction negative (d :: ds) rest

/-- A whole word read as a JSON number. -/
def parseNumber (w : List Nat) : Option JSNumber :=
  match w with
  | 45 :: rest => parseUnsigned true rest
  | _ => parseUnsigned false w

/-- A whole word read as a token: true, false, null or a number. -/
def finishWord (acc : List Nat) : Option Token :=
  if acc.reverse = utf16 "true" then some (Token.scalar (JSValue.bool true))
  else if acc.reverse = utf16 "false" then some (Token.scalar (JSValue.bool false))
  else if acc.reverse = utf16 "null" then some (Token.scalar JSValue.null)
  else (parseNumber acc.reverse).map (fun n => Token.scalar (JSValue.number n))

/-- One code unit read between tokens. -/
def lexIdle (tokens : List Token) (c : Nat) : Option LexState :=
  if c = 9 ∨ c = 10 ∨ c = 13 ∨ c = 32 then some ⟨LexMode.idle, tokens⟩
  else if c = 91 then some ⟨LexMode.idle, Token.beginArray :: tokens⟩
  else if c = 93 then some ⟨LexMode.idle, Token.endArray :: tokens⟩
  else if c = 123 then some ⟨LexMode.idle, Token.beginObject :: tokens⟩
  else if c = 125 then some ⟨LexMode.idle, Token.endObject :: tokens⟩
  else if c = 58 then some ⟨LexMode.idle, Token.colon :: tokens⟩
  else if c = 44 then some ⟨LexMode.idle, Token.comma :: tokens⟩
  else if c = 34 then some ⟨LexMode.inString [], tokens⟩
  else if isWordChar c then some ⟨LexMode.inWord [c], tokens⟩
  else none

/-- One code unit read by the tokenizer. -/
def lexStep (st : LexState) (c : Nat) : Option LexState :=
  match st.mode with
  | LexMode.idle => lexIdle st.tokens c
  | LexMode.inWord acc =>
    if isWordChar c then some ⟨LexMode.inWord (c :: acc), st.tokens⟩
    else
      match finishWord acc with
      | some t => lexIdle (t :: st.tokens) c
      | none => none
  | LexMode.inString acc =>
    if c = 34 then
      some ⟨LexMode.idle, Token.scalar (JSValue.string acc.reverse) :: st.tokens⟩
    else if c = 92 then some ⟨LexMode.inEscape acc, st.tokens⟩
    else if c < 32 then none
    else some ⟨LexMode.inString (c :: acc), st.tokens⟩
  | LexMode.inEscape acc =>
    if c = 34 ∨ c = 92 ∨ c = 47 then some ⟨LexMode.inString (c :: acc), st.tokens⟩
    else if c = 98 then some ⟨LexMode.inString (8 :: acc), st.tokens⟩
    else if c = 102 then some ⟨LexMode.inString (12 :: acc), st.tokens⟩
    else if c = 110 then some ⟨LexMode.inString (10 :: acc), st.tokens⟩
    else if c = 114 then some ⟨LexMode.inString (13 :: acc), st.tokens⟩
    else if c = 116 then some ⟨LexMode.inString (9 :: acc), st.tokens⟩
    else if c = 117 then some ⟨LexMode.inUnicode acc 0 0, st.tokens⟩
    else none
  | LexMode.inUnicode acc count value =>
    match hexValue c with
    | none => none
    | some v =>
      if count = 3 then some ⟨LexMode.inString ((value * 16 + v) :: acc), st.tokens⟩
      else some ⟨LexMode.inUnicode acc (count + 1) (value * 16 + v), st.tokens⟩

/-- The tokenizer run over a text from a state. -/
def lexAll : List Nat → LexState → Option LexState
  | [], st => some st
  | c :: cs, st =>
    match lexStep st c with
    | some st1 => lexAll cs st1
    | none => none

/-- The tokens of a JSON text, if it is made of JSON tokens and whitespace only. -/
def tokenize (text : JSString) : Option (List Token) :=
  match lexAll text ⟨LexMode.idle, []⟩ with
  | none => none
  | some st =>
    match st.mode with
    | LexMode.idle => some st.tokens.reverse
    | LexMode.inWord acc => (finishWord acc).map (fun t => (t :: st.tokens).reverse)
    | _ => none

/-- An array or object under construction: the elements or members read so far, in
reverse, and for an object the key whose value is awaited. -/
inductive Frame
  | array (elems : List JSValue)
  | object (members : List (JSString × JSValue)) (key : Option JSString)

/-- What the JSON grammar allows next. -/
inductive Expect
  | value
  | valueOrEnd
  | keyOrEnd
  | key
  | colon
  | commaOrEnd
  | done
  deriving DecidableEq, Repr

/-- The state of the parser: the open arrays and objects, innermost first, what may come
next, and the value of the text once it is complete. -/
structure ParseState where
  stack : List Frame
  expect : Expect
  result : Option JSValue

/-- A complete value is placed into the innermost open array or object, or is the result. -/
def reduceValue (v : JSValue) (stack : List Frame) : Option ParseState :=
  match stack with
  | [] => some ⟨[], Expect.done, some v⟩
  | Frame.array elems :: rest => some ⟨Frame.array (v :: elems) :: rest, Expect.commaOrEnd, none⟩
  | Frame.object members (some k) :: rest =>
    some ⟨Frame.object ((k, v) :: members) none :: rest, Expect.commaOrEnd, none⟩
  | Frame.object _ none :: _ => none

/-- A token read where a value may start. -/
def parseValueStart (stack : List Frame) (t : Token) : Option ParseState :=
  match t with
  | Token.scalar v => reduceValue v stack
  | Token.beginArray => some ⟨Frame.array [] :: stack, Expect.valueOrEnd, none⟩
  | Token.beginObject => some ⟨Frame.object [] none :: stack, Expect.keyOrEnd, none⟩
  | _ => none

/-- A token closing the innermost array or object. -/
def parseEnd (stack : List Frame) (t : Token) : Option ParseState :=
  match t, stack with
  | Token.endArray, Frame.array elems :: rest => reduceValue (JSValue.array elems.reverse) rest
  | Token.endObject, Frame.object members none :: rest =>
    reduceValue (JSValue.object members.reverse) rest
  | _, _ => none

/-- A token read where a member key must come. -/
def parseKey (stack : List Frame) (t : Token) : Option ParseState :=
  match t, stack with
  | Token.scalar (JSValue.string k), Frame.object members none :: rest =>
    some ⟨Frame.object members (some k) :: rest, Expect.colon, none⟩
  | _, _ => none

/-- One token read by the parser. -/
def parseStep (st : ParseState) (t : Token) : Option ParseState :=
  match st.expect with
  | Expect.value => parseValueStart st.stack t
  | Expect.valueOrEnd =>
    match t with
    | Token.endArray => parseEnd st.stack t
    | _ => parseValueStart st.stack t
  | Expect.keyOrEnd =>
    match t with
    | Token.endObject => parseEnd st.stack t
    | _ => parseKey st.stack t
  | Expect.key => parseKey st.stack t
  | Expect.colon =>
    match t with
    | Token.colon => some ⟨st.stack, Expect.value, none⟩
    | _ => none
  | Expect.commaOrEnd =>
    match t with
    | Token.comma =>
      match st.stack with
      | Frame.array _ :: _ => some ⟨st.stack, Expect.value, none⟩
      | Frame.object _ _ :: _ => some ⟨st.stack, Expect.key, none⟩
      | [] => none
    | _ => parseEnd st.stack t
  | Expect.done => none

/-- The parser run over a list of tokens from a state. -/
def parseAll : List Token → ParseState → Option ParseState
  | [], st => some st
  | t :: ts, st =>
    match parseStep st t with
    | some st1 => parseAll ts st1
    | none => none

/-- The function JSON.parse without reviver: the value of a JSON text, a SyntaxError
otherwise. -/
def JSONparse (text : JSString) : Except JSException JSValue :=
  match tokenize text with
  | none => Except.error JSException.syntaxError
  | some ts =>
    match parseAll ts ⟨[], Expect.value, none⟩ with
    | some ⟨_, Expect.done, some v⟩ => Except.ok v
    | _ => Except.error JSException.syntaxError

/-- The user object of the page: its name and id. -/
structure User where
  name : JSValue
  id : JSValue

/-- The expression of page.js 52: JSON.parse of atob of the second segment of the token
split at its dots. -/
def decodePayload (token : JSString) : Except JSException JSValue :=
  match atob (toStringArg (split 46 token)[1]?) with
  | Except.error e => Except.error e
  | Except.ok text => JSONparse text

/-- The try block of fetchUserInfo (page.js 48-53): the value it gives to setUser, or the
exception it raises. -/
def fetchUserInfoTry (token : Option JSString) : Except JSException (Option User) :=
  match token with
  | some (c :: cs) =>
    match decodePayload (c :: cs) with
    | Except.error e => Except.error e
    | Except.ok decoded =>
      match getField decoded (utf16 "name"), getField decoded (utf16 "id") with
      | Except.ok name, Except.ok id =>
        Except.ok (some ⟨jsOr name (JSValue.string (utf16 "User")), jsOr id JSValue.null⟩)
      | Except.error e, _ => Except.error e
      | _, Except.error e => Except.error e
  | _ => Except.ok none

/-- The function fetchUserInfo (page.js 46-57): the value given to setUser (none is null),
or the exception that escapes to the caller. The catch block turns every exception of the
try block into setUser(null). -/
def fetchUserInfo (token : Option JSString) : Except JSException (Option User) :=
  match fetchUserInfoTry token with
  | Except.ok u => Except.ok u
  | Except.error _ => Except.ok none

/-! # Properties -/

/-! ## Lemmas on strings -/

theorem isPrefixOf_append_right (p r : JSString) : p.isPrefixOf (p ++ r) = true := by
  induction p with
  | nil => simp [List.isPrefixOf]
  | cons a p ih => simp [List.isPrefixOf, ih]

theorem startsWith_append (p r o : JSString) : startsWith ((p ++ r) ++ o) p = true := by
  unfold startsWith
  rw [List.append_assoc]
  exact isPrefixOf_append_right p (r ++ o)

theorem corsMessage_split :
    utf16 "The CORS policy for this site does not allow access from Origin: "
      = utf16 "The CORS policy" ++ utf16 " for this site does not allow access from Origin: " := by
  decide

theorem indexOfFrom_nonneg_or (x : JSString) (xs : List JSString) (i : Nat) :
    indexOfFrom x xs i = -1 ↔ x ∉ xs := by
  induction xs generalizing i with
  | nil => simp [indexOfFrom]
  | cons y ys ih =>
    by_cases h : y = x
    · subst h
      simp only [indexOfFrom, if_true, List.mem_cons, true_or, not_true_eq_false, iff_false]
      omega
    · have h2 : ¬ x = y := fun e => h e.symm
      simp [indexOfFrom, h, h2, ih]

theorem indexOf_eq_neg_one (xs : List JSString) (x : JSString) :
    indexOf xs x = -1 ↔ x ∉ xs := indexOfFrom_nonneg_or x xs 0

theorem allowedOrigins_none :
    allowedOrigins none = [utf16 "http://localhost:3000"] := by decide

theorem allowedOrigins_empty :
    allowedOrigins (some []) = [utf16 "http://localhost:3000"] := by decide

theorem allowedOrigins_cons (a : Nat) (u : JSString) :
    allowedOrigins (some (a :: u)) = [utf16 "http://localhost:3000", a :: u] := rfl

theorem mem_allowedOrigins (FRONTEND_URL : Option JSString) (o : JSString) :
    o ∈ allowedOrigins FRONTEND_URL ↔
      (o = utf16 "http://localhost:3000" ∨ (FRONTEND_URL = some o ∧ o ≠ [])) := by
  cases FRONTEND_URL with
  | none => simp [allowedOrigins_none]
  | some u =>
    cases u with
    | nil =>
      rw [allowedOrigins_empty]
      constructor
      · intro h; left; simpa using h
      · rintro (h | ⟨h1, h2⟩)
        · simp [h]
        · injection h1 with h1; exact absurd h1.symm h2
    | cons a u =>
      rw [allowedOrigins_cons]
      constructor
      · intro h
        rcases List.mem_cons.1 h with h | h
        · left; exact h
        · have h3 : o = a :: u := by simpa using h
          right; subst h3; exact ⟨rfl, by simp⟩
      · rintro (h | ⟨h1, _⟩)
        · simp [h]
        · injection h1 with h1; simp [h1]

/-! ## The CORS gate and the global error handler -/

/-- C1: a request whose Origin header is present, non-empty and not an entry of the
allow-list fails the origin check with an Error whose message starts with
"The CORS policy", and the global error handler answers 403 with the JSON body carrying
that message; a request without Origin header, or with an Origin that is an entry of the
allow-list, passes the check and proceeds. The allow-list is the fixed local origin plus
FRONTEND_URL when it is set to a non-empty string. -/
theorem cors_origin_check (FRONTEND_URL origin : Option JSString) :
    (∀ o, origin = some o → o ≠ [] → o ∉ allowedOrigins FRONTEND_URL →
      ∃ msg, corsOrigin (allowedOrigins FRONTEND_URL) origin
            = ⟨some (JSThrown.error msg), false⟩
        ∧ startsWith msg (utf16 "The CORS policy") = true
        ∧ corsMiddleware FRONTEND_URL origin = CorsOutcome.answered ⟨403, ⟨msg⟩⟩) ∧
    ((origin = none ∨ ∃ o, origin = some o ∧ o ∈ allowedOrigins FRONTEND_URL) →
      corsOrigin (allowedOrigins FRONTEND_URL) origin = ⟨none, true⟩
        ∧ corsMiddleware FRONTEND_URL origin = CorsOutcome.proceeds) ∧
    (∀ o, o ∈ allowedOrigins FRONTEND_URL ↔
      (o = utf16 "http://localhost:3000" ∨ (FRONTEND_URL = some o ∧ o ≠ []))) := by
  refine ⟨?_, ?_, mem_allowedOrigins FRONTEND_URL⟩
  · intro o ho hne hnot
    subst ho
    have hidx := (indexOf_eq_neg_one (allowedOrigins FRONTEND_URL) o).2 hnot
    have hstart : startsWith
        (utf16 "The CORS policy for this site does not allow access from Origin: " ++ o)
        (utf16 "The CORS policy") = true := by
      rw [corsMessage_split]
      exact startsWith_append _ _ _
    obtain ⟨c, cs, rfl⟩ : ∃ c cs, o = c :: cs := by
      cases o with
      | nil => exact absurd rfl hne
      | cons c cs => exact ⟨c, cs, rfl⟩
    refine ⟨utf16 "The CORS policy for this site does not allow access from Origin: "
      ++ (c :: cs), ?_, hstart, ?_⟩
    · simp [corsOrigin, truthy, hidx]
    · simp [corsMiddleware, corsOrigin, truthy, hidx, errorHandler, hstart]
  · rintro (h | ⟨o, ho, hmem⟩)
    · subst h
      simp [corsMiddleware, corsOrigin]
    · subst ho
      have hidx : ¬ indexOf (allowedOrigins FRONTEND_URL) o = -1 := fun h =>
        (indexOf_eq_neg_one _ o).1 h hmem
      have hc : corsOrigin (allowedOrigins FRONTEND_URL) (some o) = ⟨none, true⟩ := by
        by_cases ht : truthy (some o) = false <;> simp [corsOrigin, ht, hidx]
      exact ⟨hc, by simp [corsMiddleware, hc]⟩

/-- C1, at a configured frontend origin: a foreign origin is answered 403 with a message
starting with "The CORS policy", the configured origin proceeds. -/
theorem cors_origin_check_witness :
    (∃ msg, startsWith msg (utf16 "The CORS policy") = true
      ∧ corsMiddleware (some (utf16 "https://app.example.com"))
          (some (utf16 "http://evil.example")) = CorsOutcome.answered ⟨403, ⟨msg⟩⟩)
    ∧ corsMiddleware (some (utf16 "https://app.example.com"))
          (some (utf16 "https://app.example.com")) = CorsOutcome.proceeds := by
  refine ⟨?_, ?_⟩
  · obtain ⟨msg, _, h2, h3⟩ :=
      (cors_origin_check (some (utf16 "https://app.example.com"))
        (some (utf16 "http://evil.example"))).1 (utf16 "http://evil.example") rfl
        (by decide) (by decide)
    exact ⟨msg, h2, h3⟩
  · exact ((cors_origin_check (some (utf16 "https://app.example.com"))
        (some (utf16 "https://app.example.com"))).2.1
        (Or.inr ⟨utf16 "https://app.example.com", rfl, by decide⟩)).2

/-- C10, as stated, fails: an Error raised outside the origin check (no allow-list and no
Origin header make the origin check produce it) whose message starts with
"The CORS policy" is answered 403, and its whole message is sent to the client. -/
theorem errorHandler_echoes_foreign_error :
    (∀ allowed origin, (corsOrigin allowed origin).err
        ≠ some (JSThrown.error (utf16 "The CORS policy table is missing in db prod-7"))) ∧
    errorHandler (JSThrown.error (utf16 "The CORS policy table is missing in db prod-7"))
      = Except.ok (⟨403, ⟨utf16 "The CORS policy table is missing in db prod-7"⟩⟩, []) ∧
    errorHandler (JSThrown.error (utf16 "The CORS policy table is missing in db prod-7"))
      ≠ Except.ok (⟨500, ⟨utf16 "Server error"⟩⟩,
          [JSThrown.error (utf16 "The CORS policy table is missing in db prod-7")]) := by
  refine ⟨?_, rfl, ?_⟩
  · intro allowed origin h
    cases origin with
    | none => simp [corsOrigin] at h
    | some o =>
      simp only [corsOrigin] at h
      split at h
      · simp at h
      · split at h
        · have h2 := congrArg (fun e => match e with
              | some (JSThrown.error m) => m.take 20
              | _ => []) h
          simp only at h2
          have h3 : utf16 "The CORS policy for this site does not allow access from Origin: "
              = utf16 "The CORS policy for " ++
                utf16 "this site does not allow access from Origin: " := by decide
          rw [h3, List.append_assoc, List.take_append_of_le_length (by decide)] at h2
          revert h2
          decide
        · simp at h
  · intro h
    have h2 : errorHandler
        (JSThrown.error (utf16 "The CORS policy table is missing in db prod-7"))
        = Except.ok (⟨403, ⟨utf16 "The CORS policy table is missing in db prod-7"⟩⟩, []) := rfl
    rw [h2] at h
    injection h with h
    have h3 := congrArg (fun p : Response × List JSThrown => p.1.status) h
    exact absurd h3 (by decide)

/-- C10, amended: every value reaching the global error handler that is not an instance
of Error, and every Error whose message is a string that does not start with
"The CORS policy", is logged and answered with status 500 and exactly the generic body
with message "Server error"; every Error whose message is a string that starts with
"The CORS policy" is answered 403 with a body carrying that message and is not logged,
whatever produced it. -/
theorem errorHandler_responses (err : JSThrown) :
    ((∀ m, err = JSThrown.error m → startsWith m (utf16 "The CORS policy") = false) →
      (∀ r, err ≠ JSThrown.errorNonString r) →
      errorHandler err = Except.ok (⟨500, ⟨utf16 "Server error"⟩⟩, [err])) ∧
    (∀ m, err = JSThrown.error m → startsWith m (utf16 "The CORS policy") = true →
      errorHandler err = Except.ok (⟨403, ⟨m⟩⟩, [])) := by
  constructor
  · intro h hs
    cases err with
    | error m => simp [errorHandler, h m rfl]
    | errorNonString r => exact absurd rfl (hs r)
    | nonError r => rfl
  · intro m hm hp
    subst hm
    simp [errorHandler, hp]

/-- C10, amended, at a database error thrown by a route handler, at a string passed to
next, and at an Error with the message "The CORS policy is strict" thrown by a route. -/
theorem errorHandler_responses_witness :
    errorHandler (JSThrown.error (utf16 "connect ECONNREFUSED 127.0.0.1:3306"))
      = Except.ok (⟨500, ⟨utf16 "Server error"⟩⟩,
          [JSThrown.error (utf16 "connect ECONNREFUSED 127.0.0.1:3306")]) ∧
    errorHandler (JSThrown.nonError (utf16 "boom"))
      = Except.ok (⟨500, ⟨utf16 "Server error"⟩⟩, [JSThrown.nonError (utf16 "boom")]) ∧
    errorHandler (JSThrown.error (utf16 "The CORS policy is strict"))
      = Except.ok (⟨403, ⟨utf16 "The CORS policy is strict"⟩⟩, []) :=
  ⟨(errorHandler_responses (JSThrown.error (utf16 "connect ECONNREFUSED 127.0.0.1:3306"))).1
      (fun m hm => by
        injection hm with hm
        subst hm
        decide)
      (fun r hr => JSThrown.noConfusion hr),
   (errorHandler_responses (JSThrown.nonError (utf16 "boom"))).1
      (fun m hm => JSThrown.noConfusion hm)
      (fun r hr => JSThrown.noConfusion hr),
   (errorHandler_responses (JSThrown.error (utf16 "The CORS policy is strict"))).2
      (utf16 "The CORS policy is strict") rfl (by decide)⟩

theorem errorHandler_nonstring_message (rendering : JSString) :
    errorHandler (JSThrown.errorNonString rendering)
      = Except.error JSException.typeError := rfl

/-! ## The post composer -/

theorem handleSubmitStart_content (backendUrl token : Option JSString) (s : PostFormState) :
    (∀ s1, handleSubmitStart backendUrl token s = Submission.settled s1 →
      s1.content = s.content) ∧
    (∀ s1 req, handleSubmitStart backendUrl token s = Submission.awaiting s1 req →
      s1.content = s.content) := by
  unfold handleSubmitStart
  constructor
  · intro s1 h
    split at h
    · injection h with h; subst h; rfl
    · split at h
      · exact Submission.noConfusion h
      · injection h with h; subst h; rfl
  · intro s1 req h
    split at h
    · exact Submission.noConfusion h
    · split at h
      · injection h with h _; subst h; rfl
      · exact Submission.noConfusion h

theorem handleSubmitResume_content (outcome : PostOutcome) (cb : Option CallOutcome)
    (s : PostFormState) :
    (handleSubmitResume outcome cb s).1.content = s.content
      ∨ (handleSubmitResume outcome cb s).1.content = [] := by
  cases outcome with
  | rejected => left; rfl
  | resolved =>
    right
    cases cb with
    | none => rfl
    | some c => cases c <;> rfl

theorem step_content_le (s : PostFormState) (op : ComposerOp)
    (h : s.content.length ≤ maxChars) : (step s op).content.length ≤ maxChars := by
  cases op with
  | change value =>
    simp only [step, handleChange]
    split
    · assumption
    · exact h
  | emojiClick emojiObject =>
    simp only [step, onEmojiClick]
    split
    · simpa [List.length_append] using ‹_›
    · exact h
  | mediaChange value files =>
    simp only [step, handleMediaChange]
    split
    · exact h
    · split <;> exact h
  | removeMedia => exact h
  | toggleEmojiPicker => exact h
  | submit env =>
    simp only [step, handleSubmit]
    have hs := handleSubmitStart_content env.NEXT_PUBLIC_BACKEND_URL env.token s
    split
    · next s1 heq => rw [hs.1 s1 heq]; exact h
    · next s1 req heq =>
      rcases handleSubmitResume_content (env.axiosPost req) env.onPostCreated s1 with hr | hr
      · simp only [hr, hs.2 s1 req heq]; exact h
      · simp [hr]
  | submitStart backendUrl token =>
    simp only [step]
    have hs := handleSubmitStart_content backendUrl token s
    split
    · next s1 heq => rw [hs.1 s1 heq]; exact h
    · next s1 req heq => rw [hs.2 s1 req heq]; exact h
  | submitResume outcome cb =>
    simp only [step]
    rcases handleSubmitResume_content outcome cb s with hr | hr
    · rw [hr]; exact h
    · simp [hr]

theorem foldl_step_content_le (ops : List ComposerOp) (s : PostFormState)
    (h : s.content.length ≤ maxChars) : (ops.foldl step s).content.length ≤ maxChars := by
  induction ops generalizing s with
  | nil => exact h
  | cons op ops ih => exact ih (step s op) (step_content_le s op h)

theorem onEmojiClick_of_le (content : JSString) (s : PostFormState)
    (emojiObject : Option (Option JSString))
    (h : content.length + (emojiOf emojiObject).length ≤ maxChars) :
    onEmojiClick content s emojiObject
      = { s with content := s.content ++ emojiOf emojiObject } := by
  unfold onEmojiClick
  rw [if_pos h]

theorem onEmojiClick_of_gt (content : JSString) (s : PostFormState)
    (emojiObject : Option (Option JSString))
    (h : ¬ content.length + (emojiOf emojiObject).length ≤ maxChars) :
    onEmojiClick content s emojiObject = s := by
  unfold onEmojiClick
  rw [if_neg h]

theorem draft_length_le_of_fresh_renders (ops : List ComposerOp) :
    (run ops).content.length ≤ 300 :=
  foldl_step_content_le ops initialState (by decide)

/-- C2, at its failing input: a draft of 299 letters a is typed and rendered, and the
emoji picker calls onEmojiClick of that render twice with the one-unit emoji U+263A
before the next render. Both guards read the 299 units of the render and pass, both
updates append to the current draft, and the draft ends 301 code units long, above
maxChars. With a render between the two calls the second guard reads 300 units and the
draft stays at 300. -/
theorem onEmojiClick_same_render_exceeds_cap :
    (handleChange initialState (List.replicate 299 97)).content = List.replicate 299 97 ∧
    (onEmojiClick (List.replicate 299 97)
        (onEmojiClick (List.replicate 299 97)
          (handleChange initialState (List.replicate 299 97)) (some (some [9786])))
        (some (some [9786]))).content
      = List.replicate 299 97 ++ [9786] ++ [9786] ∧
    (onEmojiClick (List.replicate 299 97)
        (onEmojiClick (List.replicate 299 97)
          (handleChange initialState (List.replicate 299 97)) (some (some [9786])))
        (some (some [9786]))).content.length = 301 ∧
    ¬ (onEmojiClick (List.replicate 299 97)
        (onEmojiClick (List.replicate 299 97)
          (handleChange initialState (List.replicate 299 97)) (some (some [9786])))
        (some (some [9786]))).content.length ≤ maxChars ∧
    (onEmojiClick (List.replicate 299 97 ++ [9786])
        (onEmojiClick (List.replicate 299 97)
          (handleChange initialState (List.replicate 299 97)) (some (some [9786])))
        (some (some [9786]))).content.length = 300 := by
  have hlen : (List.replicate 299 97 : JSString).length = 299 := List.length_replicate _ _
  have h0 : handleChange initialState (List.replicate 299 97)
      = { initialState with content := List.replicate 299 97 } := by
    simp only [handleChange, hlen, maxChars]
    rfl
  have h1 : onEmojiClick (List.replicate 299 97)
      { initialState with content := List.replicate 299 97 } (some (some [9786]))
      = { initialState with content := List.replicate 299 97 ++ [9786] } :=
    onEmojiClick_of_le _ _ _ (by rw [hlen]; decide)
  have h2 : onEmojiClick (List.replicate 299 97)
      { initialState with content := List.replicate 299 97 ++ [9786] } (some (some [9786]))
      = { initialState with content := List.replicate 299 97 ++ [9786] ++ [9786] } :=
    onEmojiClick_of_le _ _ _ (by rw [hlen]; decide)
  have h3 : onEmojiClick (List.replicate 299 97 ++ [9786])
      { initialState with content := List.replicate 299 97 ++ [9786] } (some (some [9786]))
      = { initialState with content := List.replicate 299 97 ++ [9786] } :=
    onEmojiClick_of_gt _ _ _ (by rw [List.length_append, hlen]; decide)
  have hl2 : (List.replicate 299 97 ++ [9786] ++ [9786] : JSString).length = 301 := by
    simp only [List.length_append, hlen, List.length_singleton]
  have hl1 : (List.replicate 299 97 ++ [9786] : JSString).length = 300 := by
    simp only [List.length_append, hlen, List.length_singleton]
  rw [h0, h1, h2, h3]
  refine ⟨rfl, rfl, hl2, ?_, hl1⟩
  show ¬ (List.replicate 299 97 ++ [9786] ++ [9786] : JSString).length ≤ maxChars
  rw [hl2]
  decide

/-- C3: handleChange replaces a draft of at most 300 code units by the new input value
whenever that value is at most 300 code units long; with a draft of exactly 300 code
units, typing further text anywhere in it leaves the whole state as it was, so nothing is
appended and no error message is set. -/
theorem handleChange_cap (s : PostFormState) :
    (∀ value : JSString, s.content.length ≤ 300 → value.length ≤ 300 →
      handleChange s value = { s with content := value }) ∧
    (∀ before typed after : JSString, s.content = before ++ after →
      s.content.length = 300 → typed ≠ [] →
      handleChange s (before ++ typed ++ after) = s) := by
  constructor
  · intro value _ hv
    simp [handleChange, maxChars, hv]
  · intro before typed after hc hlen hne
    have ht : 0 < typed.length := List.length_pos.2 hne
    have hl : (before ++ typed ++ after).length = 300 + typed.length := by
      have := congrArg List.length hc
      simp only [List.length_append] at this ⊢
      omega
    have hgt : ¬ (before ++ typed ++ after).length ≤ maxChars := by
      rw [hl]; simp only [maxChars]; omega
    simp only [handleChange, if_neg hgt]

/-- C3, at a draft of 300 letters a: the first 299 letters are accepted over a shorter
draft, and one more letter typed at the end of the full draft is dropped. -/
theorem handleChange_cap_witness :
    handleChange { initialState with content := List.replicate 10 97 } (List.replicate 299 97)
      = { initialState with content := List.replicate 299 97 } ∧
    handleChange { initialState with content := List.replicate 300 97 }
        (List.replicate 300 97 ++ [98] ++ [])
      = { initialState with content := List.replicate 300 97 } :=
  ⟨(handleChange_cap { initialState with content := List.replicate 10 97 }).1
      (List.replicate 299 97) (by decide) (by rw [List.length_replicate]; omega),
   (handleChange_cap { initialState with content := List.replicate 300 97 }).2
      (List.replicate 300 97) [98] [] (List.append_nil _).symm
      (List.length_replicate _ _) (List.cons_ne_nil _ _)⟩

/-- C4: with no media attached and a draft whose trim is empty, handleSubmit sets the
error message "Please enter some text or attach media to post.", sends no request, calls
no callback and leaves draft, media and loading flag as they were, whatever the token. -/
theorem handleSubmit_blank (env : ComposerEnv) (s : PostFormState)
    (hmedia : s.media = none) (hblank : trim s.content = []) :
    handleSubmit env s =
      ({ s with error := some (utf16 "Please enter some text or attach media to post.") },
       { requests := [], postCreatedCalls := 0, consoleErrors := 0 }) := by
  simp [handleSubmit, handleSubmitStart, hmedia, hblank]

/-- C4, at a draft of blanks and a line break, without and with a stored token: the same
message, no request, and the loading flag still false. -/
theorem handleSubmit_blank_witness :
    handleSubmit ⟨none, none, some CallOutcome.returned, fun _ => PostOutcome.resolved⟩
        { initialState with content := utf16 "  \n " }
      = ({ initialState with
            content := utf16 "  \n "
            error := some (utf16 "Please enter some text or attach media to post.") },
         { requests := [], postCreatedCalls := 0, consoleErrors := 0 }) ∧
    handleSubmit ⟨none, some (utf16 "a.b.c"), some CallOutcome.returned,
          fun _ => PostOutcome.resolved⟩
        { initialState with content := utf16 "  \n " }
      = ({ initialState with
            content := utf16 "  \n "
            error := some (utf16 "Please enter some text or attach media to post.") },
         { requests := [], postCreatedCalls := 0, consoleErrors := 0 }) :=
  ⟨handleSubmit_blank _ { initialState with content := utf16 "  \n " } rfl (by decide),
   handleSubmit_blank _ { initialState with content := utf16 "  \n " } rfl (by decide)⟩

/-- C5: a selected file whose type starts with neither "image/" nor "video/" sets the
error "Please select an image or video file only." and leaves the media (and the rest of
the state) as it was; a selected file whose type starts with "image/" or "video/"
becomes the media and clears the error. -/
theorem handleMediaChange_type_check (s : PostFormState) (file : File) (rest : List File) :
    (startsWith file.type (utf16 "image/") = false →
      startsWith file.type (utf16 "video/") = false →
      handleMediaChange s (file :: rest)
        = { s with error := some (utf16 "Please select an image or video file only.") }) ∧
    ((startsWith file.type (utf16 "image/") = true ∨
        startsWith file.type (utf16 "video/") = true) →
      handleMediaChange s (file :: rest) = { s with media := some file, error := none }) := by
  constructor
  · intro h1 h2
    simp [handleMediaChange, h1, h2]
  · rintro (h | h)
    · simp [handleMediaChange, h]
    · simp [handleMediaChange, h]

/-- C5, at a PDF selected while a picture is attached (the picture stays, the error is
set) and at a video (it becomes the media, the error is cleared). -/
theorem handleMediaChange_type_check_witness :
    handleMediaChange
        { initialState with media := some ⟨utf16 "cat.png", utf16 "image/png"⟩ }
        [⟨utf16 "cv.pdf", utf16 "application/pdf"⟩]
      = { initialState with
            media := some ⟨utf16 "cat.png", utf16 "image/png"⟩
            error := some (utf16 "Please select an image or video file only.") } ∧
    handleMediaChange
        { initialState with error := some (utf16 "Please select an image or video file only.") }
        [⟨utf16 "clip.mp4", utf16 "video/mp4"⟩]
      = { initialState with
            media := some ⟨utf16 "clip.mp4", utf16 "video/mp4"⟩
            error := none } :=
  ⟨(handleMediaChange_type_check
      { initialState with media := some ⟨utf16 "cat.png", utf16 "image/png"⟩ }
      ⟨utf16 "cv.pdf", utf16 "application/pdf"⟩ []).1 (by decide) (by decide),
   (handleMediaChange_type_check
      { initialState with error := some (utf16 "Please select an image or video file only.") }
      ⟨utf16 "clip.mp4", utf16 "video/mp4"⟩ []).2 (Or.inr (by decide))⟩

/-- C7: from a state that passes validation (a draft that is not blank, or attached
media, and a non-empty stored token), with the POST request resolved and the feed
re-fetch callback passed by the page (an async function, so the call returns), handleSubmit
ends with an empty draft, no media, the emoji picker hidden, the loading flag false and
no error message; it has sent exactly that one request and called onPostCreated exactly
once. -/
theorem handleSubmit_success (env : ComposerEnv) (s : PostFormState) (token : JSString)
    (hvalid : trim s.content ≠ [] ∨ s.media ≠ none)
    (htoken : env.token = some token) (hne : token ≠ [])
    (hpost : env.axiosPost (submitRequest env.NEXT_PUBLIC_BACKEND_URL s token)
      = PostOutcome.resolved)
    (hcb : env.onPostCreated = some CallOutcome.returned) :
    handleSubmit env s =
      ({ content := [], loading := false, media := none, showEmojiPicker := false,
         error := none, fileInputValue := s.fileInputValue.map (fun _ => []) },
       { requests := [submitRequest env.NEXT_PUBLIC_BACKEND_URL s token],
         postCreatedCalls := 1, consoleErrors := 0 }) := by
  obtain ⟨c, cs, rfl⟩ : ∃ c cs, token = c :: cs := by
    cases token with
    | nil => exact absurd rfl hne
    | cons c cs => exact ⟨c, cs, rfl⟩
  have hv : ((trim s.content).isEmpty && s.media.isNone) = false := by
    rcases hvalid with h | h
    · cases ht : trim s.content with
      | nil => exact absurd ht h
      | cons a l => rfl
    · cases hm : s.media with
      | none => exact absurd hm h
      | some f => simp
  simp [handleSubmit, handleSubmitStart, handleSubmitResume, removeMedia, hv, htoken, hpost,
    hcb]

/-- C7, at the draft "hello" with the emoji picker open, a stored token and no media. -/
theorem handleSubmit_success_witness :
    handleSubmit ⟨none, some (utf16 "a.b.c"), some CallOutcome.returned,
          fun _ => PostOutcome.resolved⟩
        { initialState with content := utf16 " hello ", showEmojiPicker := true }
      = (initialState,
         { requests := [⟨utf16 "http://localhost:5000/posts", utf16 "hello", none,
                          utf16 "Bearer a.b.c"⟩],
           postCreatedCalls := 1, consoleErrors := 0 }) :=
  handleSubmit_success ⟨none, some (utf16 "a.b.c"), some CallOutcome.returned,
      fun _ => PostOutcome.resolved⟩
    { initialState with content := utf16 " hello ", showEmojiPicker := true } (utf16 "a.b.c")
    (Or.inl (by decide)) rfl (by decide) rfl rfl

/-- C8: from a state that passes validation, with the POST request rejected (network or
server error), handleSubmit leaves draft, media, emoji picker and file input as they
were, sets the error message "Error posting. Please try again.", ends with the loading
flag false, and has not called onPostCreated. -/
theorem handleSubmit_failure (env : ComposerEnv) (s : PostFormState) (token : JSString)
    (hvalid : trim s.content ≠ [] ∨ s.media ≠ none)
    (htoken : env.token = some token) (hne : token ≠ [])
    (hpost : env.axiosPost (submitRequest env.NEXT_PUBLIC_BACKEND_URL s token)
      = PostOutcome.rejected) :
    handleSubmit env s =
      ({ s with error := some (utf16 "Error posting. Please try again."), loading := false },
       { requests := [submitRequest env.NEXT_PUBLIC_BACKEND_URL s token],
         postCreatedCalls := 0, consoleErrors := 1 }) := by
  obtain ⟨c, cs, rfl⟩ : ∃ c cs, token = c :: cs := by
    cases token with
    | nil => exact absurd rfl hne
    | cons c cs => exact ⟨c, cs, rfl⟩
  have hv : ((trim s.content).isEmpty && s.media.isNone) = false := by
    rcases hvalid with h | h
    · cases ht : trim s.content with
      | nil => exact absurd ht h
      | cons a l => rfl
    · cases hm : s.media with
      | none => exact absurd hm h
      | some f => simp
  simp [handleSubmit, handleSubmitStart, handleSubmitResume, hv, htoken, hpost]

/-- C8, at the draft "hello" with a picture attached and the emoji picker open. -/
theorem handleSubmit_failure_witness :
    handleSubmit ⟨none, some (utf16 "a.b.c"), some CallOutcome.returned,
          fun _ => PostOutcome.rejected⟩
        { initialState with
            content := utf16 "hello"
            media := some ⟨utf16 "cat.png", utf16 "image/png"⟩
            showEmojiPicker := true }
      = ({ initialState with
            content := utf16 "hello"
            media := some ⟨utf16 "cat.png", utf16 "image/png"⟩
            showEmojiPicker := true
            error := some (utf16 "Error posting. Please try again.") },
         { requests := [⟨utf16 "http://localhost:5000/posts", utf16 "hello",
                          some ⟨utf16 "cat.png", utf16 "image/png"⟩, utf16 "Bearer a.b.c"⟩],
           postCreatedCalls := 0, consoleErrors := 1 }) :=
  handleSubmit_failure ⟨none, some (utf16 "a.b.c"), some CallOutcome.returned,
      fun _ => PostOutcome.rejected⟩
    { initialState with
        content := utf16 "hello"
        media := some ⟨utf16 "cat.png", utf16 "image/png"⟩
        showEmojiPicker := true } (utf16 "a.b.c")
    (Or.inl (by decide)) rfl (by decide) rfl

/-! ## timeAgo -/

theorem fdiv_natCast (a b : Nat) : Int.fdiv (a : Int) (b : Int) = ((a / b : Nat) : Int) := by
  rw [Int.fdiv_eq_ediv _ (Int.ofNat_nonneg b)]
  exact (Int.ofNat_ediv a b).symm

theorem pluralS_natCast (k : Nat) :
    pluralS (k : Int) = if k = 1 then [] else utf16 "s" := by
  unfold pluralS
  by_cases h : k = 1
  · subst h; rfl
  · have h2 : (k : Int) ≠ 1 := by omega
    rw [if_pos h2, if_neg h]

theorem bucket_eq (k : Nat) (spaced unit : String)
    (hu : utf16 spaced = utf16 " " ++ utf16 unit) :
    numberToString (k : Int) ++ utf16 spaced ++ pluralS (k : Int) ++ utf16 " ago"
      = agoText k unit := by
  have hn : numberToString (k : Int) = utf16 (toString k) := rfl
  rw [pluralS_natCast, hn, hu]
  simp only [agoText, List.append_assoc]

theorem timeAgo_eq_spec (date : Int) (d : Nat) : timeAgo (date + d) date = timeAgoSpec d := by
  have h0 : date + (d : Int) - date = (d : Int) := by omega
  have e1 : Int.fdiv (d : Int) 1000 = ((d / 1000 : Nat) : Int) := fdiv_natCast d 1000
  have e2 : Int.fdiv ((d / 1000 : Nat) : Int) 60 = ((d / 1000 / 60 : Nat) : Int) :=
    fdiv_natCast _ 60
  have e3 : Int.fdiv ((d / 1000 / 60 : Nat) : Int) 60 = ((d / 1000 / 60 / 60 : Nat) : Int) :=
    fdiv_natCast _ 60
  have e4 : Int.fdiv ((d / 1000 / 60 / 60 : Nat) : Int) 24
      = ((d / 1000 / 60 / 60 / 24 : Nat) : Int) := fdiv_natCast _ 24
  simp only [timeAgo, timeAgoSpec, h0, e1, e2, e3, e4]
  rw [bucket_eq _ " sec" "sec" (by decide), bucket_eq _ " min" "min" (by decide),
    bucket_eq _ " hour" "hour" (by decide), bucket_eq _ " day" "day" (by decide)]
  by_cases c1 : d / 1000 < 60
  · have c1i : ((d / 1000 : Nat) : Int) < 60 := by omega
    rw [if_pos c1, if_pos c1i]
  · have c1i : ¬ ((d / 1000 : Nat) : Int) < 60 := by omega
    rw [if_neg c1, if_neg c1i]
    by_cases c2 : d / 1000 / 60 < 60
    · have c2i : ((d / 1000 / 60 : Nat) : Int) < 60 := by omega
      rw [if_pos c2, if_pos c2i]
    · have c2i : ¬ ((d / 1000 / 60 : Nat) : Int) < 60 := by omega
      rw [if_neg c2, if_neg c2i]
      by_cases c3 : d / 1000 / 60 / 60 < 24
      · have c3i : ((d / 1000 / 60 / 60 : Nat) : Int) < 24 := by omega
        rw [if_pos c3, if_pos c3i]
      · have c3i : ¬ ((d / 1000 / 60 / 60 : Nat) : Int) < 24 := by omega
        rw [if_neg c3, if_neg c3i]

/-- C6: for a timestamp a whole number d of milliseconds before now, timeAgo returns the
text of the specification: with s = d/1000, m = s/60, h = m/60 and D = h/24 (floors), the
count s in secs if s < 60, else m in mins if m < 60, else h in hours if h < 24, else D in
days, the unit taking an s exactly when the count is not 1. In particular 45 seconds
give "45 secs ago", one minute gives "1 min ago" and 90 minutes give "1 hour ago". -/
theorem timeAgo_buckets (now : Int) :
    (∀ d : Nat, timeAgo now (now - d) = timeAgoSpec d) ∧
    timeAgo now (now - 45000) = utf16 "45 secs ago" ∧
    timeAgo now (now - 60000) = utf16 "1 min ago" ∧
    timeAgo now (now - 5400000) = utf16 "1 hour ago" ∧
    timeAgo now (now - 1000) = utf16 "1 sec ago" ∧
    timeAgo now now = utf16 "0 secs ago" ∧
    timeAgo now (now - 172800000) = utf16 "2 days ago" := by
  have key : ∀ d : Nat, timeAgo now (now - d) = timeAgoSpec d := by
    intro d
    have h := timeAgo_eq_spec (now - d) d
    have e : now - (d : Int) + (d : Int) = now := by omega
    rw [e] at h
    exact h
  refine ⟨key, ?_, ?_, ?_, ?_, ?_, ?_⟩
  · rw [show (45000 : Int) = ((45000 : Nat) : Int) from rfl, key]; decide
  · rw [show (60000 : Int) = ((60000 : Nat) : Int) from rfl, key]; decide
  · rw [show (5400000 : Int) = ((5400000 : Nat) : Int) from rfl, key]; decide
  · rw [show (1000 : Int) = ((1000 : Nat) : Int) from rfl, key]; decide
  · have h := key 0
    simp only [Nat.cast_zero, sub_zero] at h
    rw [h]; decide
  · rw [show (172800000 : Int) = ((172800000 : Nat) : Int) from rfl, key]; decide

/-! ## fetchUserInfo -/

theorem fetchUserInfo_of_decode_error (c : Nat) (cs : JSString) (e : JSException)
    (h : decodePayload (c :: cs) = Except.error e) :
    fetchUserInfo (some (c :: cs)) = Except.ok none := by
  simp [fetchUserInfo, fetchUserInfoTry, h]

theorem fetchUserInfo_of_decode_ok (c : Nat) (cs : JSString) (v : JSValue)
    (h : decodePayload (c :: cs) = Except.ok v) :
    fetchUserInfo (some (c :: cs)) =
      match getField v (utf16 "name"), getField v (utf16 "id") with
      | Except.ok name, Except.ok id =>
        Except.ok (some ⟨jsOr name (JSValue.string (utf16 "User")), jsOr id JSValue.null⟩)
      | _, _ => Except.ok none := by
  simp only [fetchUserInfo, fetchUserInfoTry, h]
  cases getField v (utf16 "name") <;> cases getField v (utf16 "id") <;> rfl

theorem decodePayload_eq (t text : JSString)
    (h : atob (toStringArg (split 46 t)[1]?) = Except.ok text) :
    decodePayload t = JSONparse text := by
  simp [decodePayload, h]

theorem decodePayload_atob_error (t : JSString) (e : JSException)
    (h : atob (toStringArg (split 46 t)[1]?) = Except.error e) :
    decodePayload t = Except.error e := by
  simp [decodePayload, h]

theorem atob_undefined :
    atob (toStringArg none) = Except.error JSException.invalidCharacterError := rfl

theorem finishWord_defined (acc : List Nat) (t : Token) (h : finishWord acc = some t) :
    t ≠ Token.scalar JSValue.undefined := by
  unfold finishWord at h
  split at h
  · injection h with h; subst h; simp
  · split at h
    · injection h with h; subst h; simp
    · split at h
      · injection h with h; subst h; simp
      · cases hn : parseNumber acc.reverse with
        | none => simp [hn] at h
        | some n => simp [hn] at h; subst h; simp

theorem lexIdle_defined (tokens : List Token) (c : Nat) (st : LexState)
    (hts : ∀ t ∈ tokens, t ≠ Token.scalar JSValue.undefined)
    (h : lexIdle tokens c = some st) :
    ∀ t ∈ st.tokens, t ≠ Token.scalar JSValue.undefined := by
  unfold lexIdle at h
  split_ifs at h <;> first
    | (injection h with h; subst h; exact hts)
    | (injection h with h; subst h
       intro t ht
       rcases List.mem_cons.1 ht with rfl | ht
       · simp
       · exact hts t ht)

theorem lexStep_defined (st st1 : LexState) (c : Nat)
    (hts : ∀ t ∈ st.tokens, t ≠ Token.scalar JSValue.undefined)
    (h : lexStep st c = some st1) :
    ∀ t ∈ st1.tokens, t ≠ Token.scalar JSValue.undefined := by
  have hcons : ∀ (x : Token) , x ≠ Token.scalar JSValue.undefined →
      ∀ t ∈ x :: st.tokens, t ≠ Token.scalar JSValue.undefined := by
    intro x hx t ht
    rcases List.mem_cons.1 ht with rfl | ht
    · exact hx
    · exact hts t ht
  unfold lexStep at h
  split at h
  · exact lexIdle_defined _ _ _ hts h
  · split_ifs at h
    · injection h with h; subst h; exact hts
    · split at h
      · next t heq => exact lexIdle_defined _ _ _ (hcons t (finishWord_defined _ _ heq)) h
      · exact Option.noConfusion h
  · split_ifs at h <;> first
      | (injection h with h; subst h; exact hts)
      | (injection h with h; subst h; exact hcons _ (by simp))
  · split_ifs at h <;> (injection h with h; subst h; exact hts)
  · split at h
    · exact Option.noConfusion h
    · split_ifs at h <;> (injection h with h; subst h; exact hts)

theorem lexAll_defined (text : List Nat) (st st1 : LexState)
    (hts : ∀ t ∈ st.tokens, t ≠ Token.scalar JSValue.undefined)
    (h : lexAll text st = some st1) :
    ∀ t ∈ st1.tokens, t ≠ Token.scalar JSValue.undefined := by
  induction text generalizing st with
  | nil => simp [lexAll] at h; subst h; exact hts
  | cons c cs ih =>
    simp only [lexAll] at h
    split at h
    · next st2 heq => exact ih st2 (lexStep_defined st st2 c hts heq) h
    · exact Option.noConfusion h

theorem tokenize_defined (text : JSString) (ts : List Token) (h : tokenize text = some ts) :
    ∀ t ∈ ts, t ≠ Token.scalar JSValue.undefined := by
  unfold tokenize at h
  split at h
  · exact Option.noConfusion h
  · next st heq =>
    have hst := lexAll_defined text _ st (by simp) heq
    split at h
    · injection h with h; subst h
      intro t ht; exact hst t (List.mem_reverse.1 ht)
    · next acc _ =>
      cases hf : finishWord acc with
      | none => simp [hf] at h
      | some x =>
        simp [hf] at h; subst h
        intro t ht
        rcases List.mem_append.1 ht with ht | ht
        · exact hst t (List.mem_reverse.1 ht)
        · simp at ht; subst ht; exact finishWord_defined _ _ hf
    · exact Option.noConfusion h

theorem reduceValue_defined (v : JSValue) (stack : List Frame) (st : ParseState)
    (hv : v ≠ JSValue.undefined) (h : reduceValue v stack = some st) :
    st.result ≠ some JSValue.undefined := by
  unfold reduceValue at h
  split at h
  · injection h with h; subst h; simpa using hv
  · injection h with h; subst h; simp
  · injection h with h; subst h; simp
  · exact Option.noConfusion h

theorem parseValueStart_defined (stack : List Frame) (st1 : ParseState) (t : Token)
    (ht : t ≠ Token.scalar JSValue.undefined) (h : parseValueStart stack t = some st1) :
    st1.result ≠ some JSValue.undefined := by
  cases t with
  | scalar v => exact reduceValue_defined v _ _ (fun e => ht (by rw [e])) h
  | beginArray => simp only [parseValueStart] at h; injection h with h; subst h; simp
  | beginObject => simp only [parseValueStart] at h; injection h with h; subst h; simp
  | endArray => exact Option.noConfusion h
  | endObject => exact Option.noConfusion h
  | colon => exact Option.noConfusion h
  | comma => exact Option.noConfusion h

theorem parseEnd_defined (stack : List Frame) (st1 : ParseState) (t : Token)
    (h : parseEnd stack t = some st1) : st1.result ≠ some JSValue.undefined := by
  unfold parseEnd at h
  split at h
  · exact reduceValue_defined _ _ _ (by simp) h
  · exact reduceValue_defined _ _ _ (by simp) h
  · exact Option.noConfusion h

theorem parseKey_defined (stack : List Frame) (st1 : ParseState) (t : Token)
    (h : parseKey stack t = some st1) : st1.result ≠ some JSValue.undefined := by
  unfold parseKey at h
  split at h
  · injection h with h; subst h; simp
  · exact Option.noConfusion h

theorem parseStep_defined (st st1 : ParseState) (t : Token)
    (ht : t ≠ Token.scalar JSValue.undefined) (h : parseStep st t = some st1) :
    st1.result ≠ some JSValue.undefined := by
  unfold parseStep at h
  split at h
  · exact parseValueStart_defined _ _ _ ht h
  · split at h
    · exact parseEnd_defined _ _ _ h
    · exact parseValueStart_defined _ _ _ ht h
  · split at h
    · exact parseEnd_defined _ _ _ h
    · exact parseKey_defined _ _ _ h
  · exact parseKey_defined _ _ _ h
  · split at h
    · injection h with h; subst h; simp
    · exact Option.noConfusion h
  · split at h
    · split at h
      · injection h with h; subst h; simp
      · injection h with h; subst h; simp
      · exact Option.noConfusion h
    · exact parseEnd_defined _ _ _ h
  · exact Option.noConfusion h

theorem parseAll_defined (ts : List Token) (st st1 : ParseState)
    (hts : ∀ t ∈ ts, t ≠ Token.scalar JSValue.undefined)
    (hst : st.result ≠ some JSValue.undefined)
    (h : parseAll ts st = some st1) :
    st1.result ≠ some JSValue.undefined := by
  induction ts generalizing st with
  | nil => simp [parseAll] at h; subst h; exact hst
  | cons t ts ih =>
    simp only [parseAll] at h
    split at h
    · next st2 heq =>
      exact ih st2 (fun x hx => hts x (List.mem_cons_of_mem _ hx))
        (parseStep_defined st st2 t (hts t (List.mem_cons_self _ _)) heq) h
    · exact Option.noConfusion h

theorem JSONparse_defined (text : JSString) :
    JSONparse text ≠ Except.ok JSValue.undefined := by
  intro h
  unfold JSONparse at h
  split at h
  · exact Except.noConfusion h
  · next ts hts =>
    split at h
    · next s v heq =>
      injection h with h
      subst h
      exact parseAll_defined ts _ _ (tokenize_defined text ts hts) (by simp) heq rfl
    · exact Except.noConfusion h

/-- C9, as stated, fails: the payload MQ of the token h.MQ.s is valid base64 for the text
1, which is JSON for a number and not for an object, and yet fetchUserInfo sets the user
with name User and id null instead of null. -/
theorem fetchUserInfo_number_payload :
    (split 46 (utf16 "h.MQ.s"))[1]? = some (utf16 "MQ") ∧
    atob (utf16 "MQ") = Except.ok (utf16 "1") ∧
    JSONparse (utf16 "1") = Except.ok (JSValue.number ⟨false, 1, 0⟩) ∧
    fetchUserInfo (some (utf16 "h.MQ.s"))
      = Except.ok (some ⟨JSValue.string (utf16 "User"), JSValue.null⟩) ∧
    fetchUserInfo (some (utf16 "h.MQ.s")) ≠ Except.ok none := by
  refine ⟨rfl, rfl, rfl, rfl, ?_⟩
  intro h
  have h2 : fetchUserInfo (some (utf16 "h.MQ.s"))
      = Except.ok (some ⟨JSValue.string (utf16 "User"), JSValue.null⟩) := rfl
  rw [h2] at h
  injection h with h
  exact Option.noConfusion h

/-- C9, amended: fetchUserInfo never throws to its caller. It sets the user to null when
the token is absent or empty, when the token has no second segment, when atob rejects
the segment, when the decoded text is not JSON, and when it is the JSON value null. For
every other JSON value it sets a user: for an object the one with name decoded.name or
"User" and id decoded.id or null, and for a number, a boolean, a string or an array the
one with name "User" and id null. These are all the values JSON.parse returns. -/
theorem fetchUserInfo_fails_closed (token : Option JSString) :
    (∃ u, fetchUserInfo token = Except.ok u) ∧
    ((token = none ∨ token = some []) → fetchUserInfo token = Except.ok none) ∧
    (∀ t, token = some t → (split 46 t)[1]? = none →
      fetchUserInfo token = Except.ok none) ∧
    (∀ t e, token = some t → atob (toStringArg (split 46 t)[1]?) = Except.error e →
      fetchUserInfo token = Except.ok none) ∧
    (∀ t text e, token = some t → atob (toStringArg (split 46 t)[1]?) = Except.ok text →
      JSONparse text = Except.error e → fetchUserInfo token = Except.ok none) ∧
    (∀ t text, token = some t → atob (toStringArg (split 46 t)[1]?) = Except.ok text →
      JSONparse text = Except.ok JSValue.null → fetchUserInfo token = Except.ok none) ∧
    (∀ t text members, token = some t → t ≠ [] →
      atob (toStringArg (split 46 t)[1]?) = Except.ok text →
      JSONparse text = Except.ok (JSValue.object members) →
      fetchUserInfo token = Except.ok (some
        ⟨jsOr (ownField (JSValue.object members) (utf16 "name")) (JSValue.string (utf16 "User")),
         jsOr (ownField (JSValue.object members) (utf16 "id")) JSValue.null⟩)) ∧
    (∀ t text v, token = some t → t ≠ [] →
      atob (toStringArg (split 46 t)[1]?) = Except.ok text →
      JSONparse text = Except.ok v →
      ((∃ n, v = JSValue.number n) ∨ (∃ b, v = JSValue.bool b) ∨ (∃ x, v = JSValue.string x)
        ∨ (∃ elems, v = JSValue.array elems)) →
      fetchUserInfo token = Except.ok (some ⟨JSValue.string (utf16 "User"), JSValue.null⟩)) ∧
    (∀ text, JSONparse text ≠ Except.ok JSValue.undefined) := by
  refine ⟨?_, ?_, ?_, ?_, ?_, ?_, ?_, ?_, JSONparse_defined⟩
  · unfold fetchUserInfo
    cases fetchUserInfoTry token with
    | ok u => exact ⟨u, rfl⟩
    | error e => exact ⟨none, rfl⟩
  · rintro (h | h) <;> subst h <;> rfl
  · intro t ht hseg
    subst ht
    cases t with
    | nil => rfl
    | cons c cs =>
      have ha : atob (toStringArg (split 46 (c :: cs))[1]?)
          = Except.error JSException.invalidCharacterError := by
        rw [hseg]; exact atob_undefined
      exact fetchUserInfo_of_decode_error c cs _ (decodePayload_atob_error _ _ ha)
  · intro t e ht ha
    subst ht
    cases t with
    | nil => rfl
    | cons c cs => exact fetchUserInfo_of_decode_error c cs e (decodePayload_atob_error _ _ ha)
  · intro t text e ht ha hj
    subst ht
    cases t with
    | nil => rfl
    | cons c cs =>
      exact fetchUserInfo_of_decode_error c cs e (by rw [decodePayload_eq _ _ ha, hj])
  · intro t text ht ha hj
    subst ht
    cases t with
    | nil => rfl
    | cons c cs =>
      rw [fetchUserInfo_of_decode_ok c cs JSValue.null (by rw [decodePayload_eq _ _ ha, hj])]
      rfl
  · intro t text members ht hne ha hj
    subst ht
    cases t with
    | nil => exact absurd rfl hne
    | cons c cs =>
      rw [fetchUserInfo_of_decode_ok c cs _ (by rw [decodePayload_eq _ _ ha, hj])]
      rfl
  · intro t text v ht hne ha hj hv
    subst ht
    cases t with
    | nil => exact absurd rfl hne
    | cons c cs =>
      rw [fetchUserInfo_of_decode_ok c cs v (by rw [decodePayload_eq _ _ ha, hj])]
      rcases hv with ⟨n, rfl⟩ | ⟨b, rfl⟩ | ⟨x, rfl⟩ | ⟨elems, rfl⟩ <;> rfl

/-- C9, amended, at four tokens: one without a dot and one whose payload is the JSON text
null give no user; one whose payload is an object with name Ada and id 7 gives that user;
one whose payload is the empty array gives the user with name User and id null. -/
theorem fetchUserInfo_fails_closed_witness :
    fetchUserInfo (some (utf16 "not-a-jwt")) = Except.ok none ∧
    fetchUserInfo (some (utf16 "h.bnVsbA==.s")) = Except.ok none ∧
    fetchUserInfo (some (utf16 "h.eyJuYW1lIjoiQWRhIiwiaWQiOjd9.s"))
      = Except.ok (some ⟨JSValue.string (utf16 "Ada"), JSValue.number ⟨false, 7, 0⟩⟩) ∧
    fetchUserInfo (some (utf16 "h.W10=.s"))
      = Except.ok (some ⟨JSValue.string (utf16 "User"), JSValue.null⟩) :=
  ⟨(fetchUserInfo_fails_closed (some (utf16 "not-a-jwt"))).2.2.1 (utf16 "not-a-jwt") rfl rfl,
   (fetchUserInfo_fails_closed (some (utf16 "h.bnVsbA==.s"))).2.2.2.2.2.1
      (utf16 "h.bnVsbA==.s") (utf16 "null") rfl rfl rfl,
   (fetchUserInfo_fails_closed (some (utf16 "h.eyJuYW1lIjoiQWRhIiwiaWQiOjd9.s"))).2.2.2.2.2.2.1
      (utf16 "h.eyJuYW1lIjoiQWRhIiwiaWQiOjd9.s") (utf16 "\x7b\"name\":\"Ada\",\"id\":7\x7d")
      [(utf16 "name", JSValue.string (utf16 "Ada")),
       (utf16 "id", JSValue.number ⟨false, 7, 0⟩)]
      rfl (by decide) rfl rfl,
   (fetchUserInfo_fails_closed (some (utf16 "h.W10=.s"))).2.2.2.2.2.2.2.1
      (utf16 "h.W10=.s") (utf16 "[]") (JSValue.array []) rfl (by decide) rfl rfl
      (Or.inr (Or.inr (Or.inr ⟨[], rfl⟩)))⟩

end MiniLinkedIn
